import Mathlib

set_option maxHeartbeats 1000000
set_option maxRecDepth 8000

/-! Shallow embedding of the fgmitesh/Bot repository (src/index.js), which
contains three Discord bots: a music bot, a giveaway bot and a poll bot.
Pure fragments become Lean functions; stateful handlers become explicit step
functions on state records; every `Math.random()` draw is passed in as an
explicit argument or stream; fallible message fetches become explicit
`Bool`/`Option` arguments. -/

namespace Bot

/-- A Discord user as it appears in a fetched reaction collection:
an id and a bot flag. -/
structure RUser where
  id : Nat
  bot : Bool
deriving DecidableEq, Repr

/-- The participant extraction of `endGiveaway` (src/index.js:1403) and
`rerollGiveaway` (src/index.js:1447):
`reactions.filter(user => !user.bot).map(user => user.id)`. -/
def participantsOf (users : List RUser) : List Nat :=
  (users.filter (fun u => !u.bot)).map (fun u => u.id)

/-- The winner-drawing loop of `endGiveaway` (src/index.js:1406-1410) and
`rerollGiveaway` (src/index.js:1450-1454):
each round draws `winnerIndex = Math.floor(Math.random() * participants.length)`,
pushes `participants[winnerIndex]` and removes it with `splice`.  The list
`rands` supplies the successive random draws; `% length` records that each
draw is below the current participant count.  The loop stops when either the
configured winner count is reached or the participants run out. -/
def pickWinners : Nat → List Nat → List Nat → List Nat
  | 0, _, _ => []
  | _ + 1, [], _ => []
  | Nat.succ k, p :: ps, rands =>
      let idx := rands.headD 0 % (p :: ps).length
      (p :: ps).getD idx 0 :: pickWinners k ((p :: ps).eraseIdx idx) (rands.drop 1)

/-- A queued track as the button handlers see it: a uri (used by the shuffle
button to compare tracks) and the id of the requesting user. -/
structure Track where
  uri : String
  requesterId : Nat
deriving DecidableEq, Repr

/-- One `[a[i], a[j]] = [a[j], a[i]]` destructuring swap of the shuffle
button (src/index.js:1040). -/
def listSwap {α : Type} (a : List α) (i j : Nat) : List α :=
  match a[i]?, a[j]? with
  | some x, some y => (a.set i y).set j x
  | _, _ => a

/-- The Fisher-Yates loop of the shuffle button (src/index.js:1038-1041):
`for (let i = a.length - 1; i > 0; i--) { j = Math.floor(Math.random()*(i+1)); swap a[i], a[j]; }`.
`rands i % (i + 1)` is the draw for counter value `i`. -/
def fyLoop {α : Type} (rands : Nat → Nat) : List α → Nat → List α
  | a, 0 => a
  | a, Nat.succ k => fyLoop rands (listSwap a (k + 1) (rands (k + 1) % (k + 2))) k

/-- The whole in-place Fisher-Yates pass over an array
(src/index.js:1038-1041). -/
def fisherYates {α : Type} (a : List α) (rands : Nat → Nat) : List α :=
  fyLoop rands a (a.length - 1)

/-- Net effect of the shuffle-button branch (src/index.js:1030-1052) on the
playing slot and the queue.  `qshuf` is the queue after the library-level
`player.queue.shuffle()` call; the code then builds
`tracksToShuffle = [currentSong, ...player.queue.tracks]`, runs the
Fisher-Yates loop over it, clears the queue and re-adds `slice(1)`; if the
new head has a uri different from the current song it is inserted at
position 0 and `player.skip()` makes it the playing track, otherwise the
current song keeps playing. -/
def shuffleButtonEffect (current : Track) (qshuf : List Track)
    (rands : Nat → Nat) : Track × List Track :=
  match fisherYates (current :: qshuf) rands with
  | [] => (current, [])
  | t0 :: rest => if t0.uri = current.uri then (current, rest) else (t0, rest)

/-- A call into the wrapped player/queue library issued by a button branch. -/
inductive LibCall where
  | pause (flag : Bool)
  | skip
  | seek (pos : Nat)
  | queueShuffle
  | queueClear
  | queueAdd (ts : List Track)
  | queueAddFront (t : Track)
  | nodeStop
  | voiceDisconnect
deriving DecidableEq, Repr

/-- The cached player object the button handler looks up by guild id. -/
structure MusicPlayer where
  voiceId : Nat
  current : Option Track
  tracks : List Track
  destroyed : Bool
  hasNode : Bool
  botInVoice : Bool
deriving DecidableEq, Repr

/-- A button interaction: custom id, invoking user id, and the voice channel
the invoking member is in (if any). -/
structure BtnInteraction where
  customId : String
  userId : Nat
  memberVoice : Option Nat
deriving DecidableEq, Repr

/-- What a button branch produced: the library calls it issued, in order,
and the reply text, if it replied. -/
structure HandlerResult where
  calls : List LibCall
  reply : Option String
deriving DecidableEq, Repr

def noPlayerMsg : String := "There is no active player in this server!"

def sameVoiceMsg : String :=
  "You must be in the same voice channel as the bot to use the music controls!"

def requesterOnlyMsg : String :=
  "You cannot use this button! Only the person who requested this song can control it."

def requesterOnlyStopMsg : String :=
  "You cannot use this button! Only the person who requested this song can stop it."

def noTrackMsg : String := "No track is currently playing!"

def legacyPauseResumeMsg : String :=
  "Pause/Resume button logic has been updated. Please use the new controls."

def emptyQueueShuffleMsg : String :=
  "No additional tracks in queue. Add more songs to create a shuffle mix!"

/-- The music-control block of the music bot interactionCreate handler
(src/index.js:875-1161), as a pure function from the interaction, the cached
player, the library queue shuffle (`player.queue.shuffle()`, an unspecified
permutation chosen by the library) and the `Math.random` draws of the
Fisher-Yates loop, to the library calls issued and the reply.  Custom ids
outside the dispatch list `['pauseresume','skip','replay','shuffle','stop']`
fall through the block with no call and no reply.  The switch also contains
`pause` and `resume` cases (src/index.js:900-948) which the dispatch list
never reaches; they are kept here verbatim.  In the replay branch the third
call, pause false, is issued by a 500 ms timer after the reply
(src/index.js:995-997); in the stop branch the channel message sends are
omitted and only the library calls are recorded. -/
def musicButtonHandler (i : BtnInteraction) (player : Option MusicPlayer)
    (libShuffle : List Track → List Track) (rands : Nat → Nat) : HandlerResult :=
  if i.customId ∈ (["pauseresume", "skip", "replay", "shuffle", "stop"] : List String) then
    match player with
    | none => ⟨[], some noPlayerMsg⟩
    | some p =>
      if i.memberVoice ≠ some p.voiceId ∧ i.customId ≠ "stop" then
        ⟨[], some sameVoiceMsg⟩
      else
        match i.customId with
        | "pause" =>
          match p.current with
          | some t =>
            if t.requesterId ≠ i.userId then ⟨[], some requesterOnlyMsg⟩
            else ⟨[LibCall.pause true], some "Paused the music! Click Resume to continue playback."⟩
          | none => ⟨[LibCall.pause true], some "Paused the music! Click Resume to continue playback."⟩
        | "resume" =>
          match p.current with
          | some t =>
            if t.requesterId ≠ i.userId then ⟨[], some requesterOnlyMsg⟩
            else ⟨[LibCall.pause false], some "Resumed the music! Click Pause to pause playback."⟩
          | none => ⟨[LibCall.pause false], some "Resumed the music! Click Pause to pause playback."⟩
        | "pauseresume" => ⟨[], some legacyPauseResumeMsg⟩
        | "skip" =>
          match p.current with
          | some t =>
            if t.requesterId ≠ i.userId then ⟨[], some requesterOnlyMsg⟩
            else ⟨[LibCall.skip], some "Skipped to the next track!"⟩
          | none => ⟨[LibCall.skip], some "Skipped to the next track!"⟩
        | "replay" =>
          match p.current with
          | none => ⟨[], some noTrackMsg⟩
          | some t =>
            if t.requesterId ≠ i.userId then ⟨[], some requesterOnlyMsg⟩
            else ⟨[LibCall.seek 0, LibCall.pause true, LibCall.pause false],
                  some "Stopped and restarted the current track!"⟩
        | "shuffle" =>
          match p.current with
          | none => ⟨[], some noTrackMsg⟩
          | some t =>
            if t.requesterId ≠ i.userId then ⟨[], some requesterOnlyMsg⟩
            else if p.tracks.length = 0 then ⟨[], some emptyQueueShuffleMsg⟩
            else
              match fisherYates (t :: libShuffle p.tracks) rands with
              | [] =>
                ⟨[LibCall.queueShuffle, LibCall.queueClear, LibCall.queueAdd []],
                 some "Shuffled all tracks including the current one!"⟩
              | t0 :: rest =>
                ⟨[LibCall.queueShuffle, LibCall.queueClear, LibCall.queueAdd rest] ++
                    (if t0.uri ≠ t.uri then [LibCall.queueAddFront t0, LibCall.skip] else []),
                 some "Shuffled all tracks including the current one!"⟩
        | "stop" =>
          match p.current with
          | none => ⟨[], some noTrackMsg⟩
          | some t =>
            if t.requesterId ≠ i.userId then ⟨[], some requesterOnlyStopMsg⟩
            else
              ⟨(if p.destroyed then [] else
                  [LibCall.queueClear] ++ (if p.hasNode then [LibCall.nodeStop] else []) ++
                  (if p.botInVoice then [LibCall.voiceDisconnect] else [])),
               some "Music playback has been stopped and the queue has been cleared."⟩
        | _ => ⟨[], none⟩
  else ⟨[], none⟩

/-- Lookup in a JS `Map`/`Collection`, embedded as an association list. -/
def alookup {β : Type} (m : List (Nat × β)) (k : Nat) : Option β :=
  (m.find? (fun e => decide (e.1 = k))).map (fun e => e.2)

/-- `Map.prototype.set`: replace any entry with the same key.  (A JS `Map`
keeps at most one entry per key; insertion order is not relevant to any
claim, so the fresh entry is put in front.) -/
def aset {β : Type} (m : List (Nat × β)) (k : Nat) (v : β) : List (Nat × β) :=
  (k, v) :: m.filter (fun e => decide (e.1 ≠ k))

/-- `Map.prototype.delete`. -/
def adel {β : Type} (m : List (Nat × β)) (k : Nat) : List (Nat × β) :=
  m.filter (fun e => decide (e.1 ≠ k))

/-- At most one entry per key. -/
def keysNodup {β : Type} (m : List (Nat × β)) : Prop :=
  (m.map Prod.fst).Nodup

/-- The player state the inactivity-timeout callback inspects
(src/index.js:615-620): `currentPlayer.queue.current`,
`currentPlayer.queue.isEmpty`, `currentPlayer.playing`. -/
structure MPlayer where
  hasCurrent : Bool
  queueIsEmpty : Bool
  playing : Bool
deriving DecidableEq, Repr

/-- A scheduled `setTimeout` that has neither fired nor been cleared. -/
structure PendingTimer where
  tid : Nat
  guild : Nat
  delay : Nat
deriving DecidableEq, Repr

/-- The music bot state the inactivity logic touches: the kazagumo player
map, `client.twentyFourSeven`, `client.inactivityTimeouts`
(guild id to timer id), the pending timers, a log of guilds whose player the
inactivity timer destroyed, and a fresh-timer-id counter. -/
structure MusicState where
  players : List (Nat × MPlayer)
  twentyFourSeven : List Nat
  inactivityTimeouts : List (Nat × Nat)
  pending : List PendingTimer
  destroyedByTimer : List Nat
  nextTid : Nat
deriving Repr

/-- `setTimeout(..., 180000)` in the `playerEmpty` handler (src/index.js:633). -/
def inactivityDelayMs : Nat := 180000

/-- Tail of the `playerEmpty` handler (src/index.js:607-638).
`autoplayReturned` models the autoplay branch returning early
(src/index.js:600); then the handler returns if 24/7 mode is set for the
guild (src/index.js:608); then, if the text channel is cached, it starts a
180000 ms timer and stores its id in `inactivityTimeouts`
(src/index.js:614-637). -/
def stepPlayerEmpty (s : MusicState) (g : Nat) (chanCached autoplayReturned : Bool) :
    MusicState :=
  if autoplayReturned then s
  else if g ∈ s.twentyFourSeven then s
  else if chanCached then
    { s with pending := ⟨s.nextTid, g, inactivityDelayMs⟩ :: s.pending,
             inactivityTimeouts := aset s.inactivityTimeouts g s.nextTid,
             nextTid := s.nextTid + 1 }
  else s

/-- Head of the `playerStart` handler (src/index.js:207-211): if the guild
has a stored inactivity timeout, `clearTimeout` it and delete the map entry. -/
def stepPlayerStart (s : MusicState) (g : Nat) : MusicState :=
  match alookup s.inactivityTimeouts g with
  | none => s
  | some tid =>
      { s with pending := s.pending.filter (fun t => decide (t.tid ≠ tid)),
               inactivityTimeouts := adel s.inactivityTimeouts g }

/-- The inactivity timeout callback (src/index.js:614-633): when the timer
fires it is no longer pending; the callback re-fetches the player and
destroys it only if the player still exists, it has no current track or its
queue is empty, it is not playing, and 24/7 mode is off for the guild. -/
def stepTimerFire (s : MusicState) (tid : Nat) : MusicState :=
  match s.pending.find? (fun t => decide (t.tid = tid)) with
  | none => s
  | some t =>
    match alookup s.players t.guild with
    | none => { s with pending := s.pending.filter (fun x => decide (x.tid ≠ tid)) }
    | some p =>
      if (p.hasCurrent = false ∨ p.queueIsEmpty = true) ∧ p.playing = false
          ∧ t.guild ∉ s.twentyFourSeven then
        { s with pending := s.pending.filter (fun x => decide (x.tid ≠ tid)),
                 players := adel s.players t.guild,
                 destroyedByTimer := t.guild :: s.destroyedByTimer }
      else { s with pending := s.pending.filter (fun x => decide (x.tid ≠ tid)) }

/-- Events that touch the inactivity bookkeeping: the two kazagumo events, a
timer firing, player creation (`/play`), and the 24/7 toggle
(src/index.js:840-852). -/
inductive MEvent where
  | playerEmptyEv (g : Nat) (chanCached autoplayReturned : Bool)
  | playerStartEv (g : Nat)
  | timerFireEv (tid : Nat)
  | createPlayerEv (g : Nat) (p : MPlayer)
  | set247Ev (g : Nat)
  | unset247Ev (g : Nat)

/-- One event dispatch of the music bot. -/
def mstep (s : MusicState) (e : MEvent) : MusicState :=
  match e with
  | .playerEmptyEv g c a => stepPlayerEmpty s g c a
  | .playerStartEv g => stepPlayerStart s g
  | .timerFireEv tid => stepTimerFire s tid
  | .createPlayerEv g p => { s with players := aset s.players g p }
  | .set247Ev g => { s with twentyFourSeven := g :: s.twentyFourSeven }
  | .unset247Ev g => { s with twentyFourSeven := s.twentyFourSeven.filter (fun x => decide (x ≠ g)) }

/-- The music bot starts with empty maps (src/index.js:49-51). -/
def minit : MusicState := ⟨[], [], [], [], [], 0⟩

/-- Run a sequence of events on the single-threaded event loop. -/
def mrun (evs : List MEvent) : MusicState := evs.foldl mstep minit

/-- An `activeGiveaways` entry (src/index.js:1496-1501, 1623-1628). -/
structure GiveawayEntry where
  channelId : Nat
  prize : String
  winners : Nat
  timeoutId : Nat
deriving DecidableEq, Repr

/-- An `endedGiveaways` snapshot (src/index.js:1426-1432); note it stores the
winner count, not the drawn winners. -/
structure EndedEntry where
  channelId : Nat
  prize : String
  winners : Nat
  endMessageId : Nat
deriving DecidableEq, Repr

/-- The giveaway bot state: `activeGiveaways`, `endedGiveaways`
(src/index.js:1309-1310), the pending end timers (timer id to giveaway
message id), the timers that have been `clearTimeout`-ed, and a counter
handing out fresh Discord message and timer ids. -/
structure GiveState where
  active : List (Nat × GiveawayEntry)
  ended : List (Nat × EndedEntry)
  pendingTimers : List (Nat × Nat)
  clearedTimers : List Nat
  nextId : Nat
deriving Repr

/-- `endGiveaway(messageId, channel)` (src/index.js:1392-1435).  If the id is
not in `activeGiveaways`, return false.  Otherwise clear the stored timeout
and delete the entry, then fetch the giveaway message (`fetchOk = false` is
the `.catch(() => null)` branch: return false with nothing recorded).  On
success the winners are drawn from the users who reacted with the giveaway
emoji (`reactUsers`, drawn by `pickWinners` with the `rands` stream), the end
announcement is sent (Discord assigns it `endMsgId`) and a snapshot is stored
in `endedGiveaways`; return true. -/
def endGiveaway (s : GiveState) (mid chanId : Nat) (fetchOk : Bool)
    (reactUsers : List RUser) (rands : List Nat) (endMsgId : Nat) :
    GiveState × Bool :=
  match alookup s.active mid with
  | none => (s, false)
  | some gw =>
    let s1 : GiveState :=
      { s with clearedTimers := gw.timeoutId :: s.clearedTimers,
               pendingTimers := s.pendingTimers.filter (fun e => decide (e.1 ≠ gw.timeoutId)),
               active := adel s.active mid }
    if fetchOk then
      let _winners := pickWinners gw.winners (participantsOf reactUsers) rands
      ({ s1 with ended := aset s1.ended mid ⟨chanId, gw.prize, gw.winners, endMsgId⟩ }, true)
    else (s1, false)

/-- The `start` command (prefix src/index.js:1492-1503, slash 1619-1630):
send the giveaway message (Discord assigns it the fresh id `s.nextId`),
schedule the end timer, and store the entry in `activeGiveaways`.  Returns
the new state and the giveaway message id. -/
def startGiveaway (s : GiveState) (chanId : Nat) (prize : String) (winners : Nat) :
    GiveState × Nat :=
  let mid := s.nextId
  let tid := s.nextId + 1
  ({ s with active := aset s.active mid ⟨chanId, prize, winners, tid⟩,
            pendingTimers := (tid, mid) :: s.pendingTimers,
            nextId := s.nextId + 2 }, mid)

/-- `rerollGiveaway(messageId)` (src/index.js:1438-1462): reads
`endedGiveaways`, refetches the original message and redraws winners with
the same loop; it mutates neither map.  Returns the prize and the new
winners, or none when the snapshot or the message is missing. -/
def rerollGiveaway (s : GiveState) (mid : Nat) (fetchOk : Bool)
    (reactUsers : List RUser) (rands : List Nat) : Option (String × List Nat) :=
  match alookup s.ended mid with
  | none => none
  | some gw =>
      if fetchOk then some (gw.prize, pickWinners gw.winners (participantsOf reactUsers) rands)
      else none

/-- Giveaway bot events: the start command, an end timer firing (its
callback runs `endGiveaway` on the captured message id and channel), the
`end` command, and the `reroll` command. -/
inductive GEvent where
  | startEv (chanId : Nat) (prize : String) (winners : Nat)
  | timerFireEv (tid : Nat) (fetchOk : Bool) (users : List RUser) (rands : List Nat) (endMsgId : Nat)
  | endCmdEv (mid chanId : Nat) (fetchOk : Bool) (users : List RUser) (rands : List Nat) (endMsgId : Nat)
  | rerollEv (mid : Nat) (fetchOk : Bool) (users : List RUser) (rands : List Nat)

/-- One event dispatch of the giveaway bot. -/
def gstep (s : GiveState) (e : GEvent) : GiveState :=
  match e with
  | .startEv c pz w => (startGiveaway s c pz w).1
  | .timerFireEv tid f us rs em =>
      match s.pendingTimers.find? (fun x => decide (x.1 = tid)) with
      | none => s
      | some pr =>
          (endGiveaway
            { s with pendingTimers := s.pendingTimers.filter (fun x => decide (x.1 ≠ tid)) }
            pr.2 (((alookup s.active pr.2).map GiveawayEntry.channelId).getD 0)
            f us rs em).1
  | .endCmdEv mid c f us rs em => (endGiveaway s mid c f us rs em).1
  | .rerollEv _ _ _ _ => s

/-- The giveaway bot starts with empty maps (src/index.js:1309-1310). -/
def ginit : GiveState := ⟨[], [], [], [], 0⟩

/-- Run a sequence of events on the single-threaded event loop. -/
def grun (evs : List GEvent) : GiveState := evs.foldl gstep ginit

/-- Does `pat` occur as a contiguous substring?  (`String.prototype.includes`
on the character lists.) -/
def occursIn (pat : List Char) : List Char → Bool
  | [] => pat.isEmpty
  | c :: cs => pat.isPrefixOf (c :: cs) || occursIn pat cs

/-- `message.includes(pattern)` in the shoukaku error handler. -/
def strContains (s pat : String) : Bool := occursIn pat.toList s.toList

/-- The shoukaku socket-error handler (src/index.js:144-173): with no error
message (or an empty, hence falsy, one) no reconnect is scheduled; otherwise
the delay before `shoukaku.reconnect()` is keyed on the message text, with a
10000 ms default. -/
def reconnectDelay (errMessage : Option String) : Option Nat :=
  match errMessage with
  | none => none
  | some m =>
    if m = "" then none
    else if strContains m "AbortError" then some 5000
    else if strContains m "ECONNREFUSED" || strContains m "Connection refused" then some 15000
    else if strContains m "Transport failed" || strContains m "Connection reset" then some 7500
    else some 10000

/-- The fixed regional-indicator emoji map of the poll bot
(src/index.js:1766-1771). -/
def emojiMap : List String :=
  ["🇦", "🇧", "🇨", "🇩", "🇪", "🇫", "🇬", "🇭", "🇮", "🇯",
   "🇰", "🇱", "🇲", "🇳", "🇴", "🇵", "🇶", "🇷", "🇸", "🇹"]

/-- JS truthiness of an optional string option. -/
def truthyStr : Option String → Bool
  | none => false
  | some v => decide (v ≠ "")

/-- The choice-collection loop of the poll handler (src/index.js:1814-1818):
for `i` in `0..19`, if the option `choice_<letter i>` was provided (and is
truthy), push `{ emoji: emojiMap[i], label: value }`. -/
def pollChoices (opts : Nat → Option String) : List (String × String) :=
  (List.range 20).filterMap (fun i =>
    match opts i with
    | some v => if v = "" then none else some (emojiMap.getD i "", v)
    | none => none)

/-- The reactions the poll bot adds to its own reply
(src/index.js:1841-1846): the choice emoji in order when at least two
choices were provided, thumbs up and down otherwise. -/
def pollReactions (opts : Nat → Option String) : List String :=
  if 2 ≤ (pollChoices opts).length then (pollChoices opts).map Prod.fst
  else ["👍", "👎"]

/-- The fixed genre list of the autoplay branch (src/index.js:523). -/
def genres : List String :=
  ["pop", "rock", "hip hop", "dance", "electronic", "chill", "top hits",
   "popular", "trending", "new music", "music mix"]

/-- What the autoplay branch did: whether `kazagumo.search` was called, with
which genre, and which tracks were appended to the queue. -/
structure AutoplayOutcome where
  searched : Bool
  genre : Option String
  appended : List Track
deriving DecidableEq, Repr

/-- The autoplay branch of `playerEmpty` (src/index.js:519-605).
`autoplayOn` is `client.autoplay && client.autoplay.has(guildId)`;
`prevTruthy` is the truthiness of `player.queue.previous`; `draw` supplies
`Math.floor(Math.random() * genres.length)`; `searchTracks` is the library
search result for the chosen genre and `searchShuffle` the reordering
produced by `result.tracks.sort(() => Math.random() - 0.5)`.  On a
non-empty result the first five shuffled tracks are added to the queue;
on an empty result nothing is appended. -/
def autoplayOnEmpty (autoplayOn prevTruthy : Bool) (draw : Nat)
    (searchTracks : List Track) (searchShuffle : List Track → List Track) :
    AutoplayOutcome :=
  if autoplayOn && prevTruthy then
    let genre := genres.getD (draw % genres.length) ""
    if 0 < searchTracks.length then
      { searched := true, genre := some genre,
        appended := (searchShuffle searchTracks).take 5 }
    else { searched := true, genre := some genre, appended := [] }
  else { searched := false, genre := none, appended := [] }

/-- Music bot keep-alive route (src/index.js:1287); `_req` models the
incoming request, which the handler never reads. -/
def musicKeepAlive (_req : String) : String := "Bot is running!"

/-- Giveaway bot keep-alive route (src/index.js:1731-1733): the body
interpolates `client.user?.username || 'Giveaway Bot'`, so it depends on the
logged-in user. -/
def giveawayKeepAlive (_req : String) (username : Option String) : String :=
  (username.getD "Giveaway Bot") ++ " is running!"

/-- Poll bot keep-alive route (src/index.js:1850). -/
def pollKeepAlive (_req : String) : String := "Bot is online"

/-! Helper lemmas about lists, the association-list embedding of JS maps,
and the random-selection loops. -/

theorem getD_mem {α : Type} (l : List α) (i : Nat) (d : α) (h : i < l.length) :
    l.getD i d ∈ l := by
  induction l generalizing i with
  | nil => simp at h
  | cons x xs ih =>
    cases i with
    | zero => simp [List.getD]
    | succ n =>
      right
      exact ih n (by simpa using h)

theorem lt_length_of_getElem?_some {α : Type} {l : List α} {i : Nat} {x : α}
    (h : l[i]? = some x) : i < l.length :=
  (List.getElem?_eq_some.mp h).1

theorem getD_of_getElem?_some {α : Type} {l : List α} {i : Nat} {x : α} (d : α)
    (h : l[i]? = some x) : l.getD i d = x := by
  rw [List.getD_eq_getElem?_getD, h]
  rfl

theorem length_eraseIdx_add_one {α : Type} (l : List α) (i : Nat) (h : i < l.length) :
    (l.eraseIdx i).length + 1 = l.length := by
  rw [List.length_eraseIdx]
  simp [h]
  omega

theorem mem_of_mem_eraseIdx {α : Type} {l : List α} {i : Nat} {a : α}
    (h : a ∈ l.eraseIdx i) : a ∈ l :=
  (List.eraseIdx_sublist l i).subset h

theorem cons_eraseIdx_perm {α : Type} (l : List α) (i : Nat) (d : α) (h : i < l.length) :
    List.Perm l (l.getD i d :: l.eraseIdx i) := by
  induction l generalizing i with
  | nil => simp at h
  | cons x xs ih =>
    cases i with
    | zero => simp [List.getD]
    | succ n =>
      have hperm := ih n (by simpa using h)
      exact (hperm.cons x).trans (List.Perm.swap _ x _)

theorem count_set_aux {α : Type} [DecidableEq α] (l : List α) (i : Nat) (y b : α)
    (h : i < l.length) :
    (l.set i y).count b + (if l.getD i y = b then 1 else 0)
      = l.count b + (if y = b then 1 else 0) := by
  induction l generalizing i with
  | nil => simp at h
  | cons x xs ih =>
    cases i with
    | zero =>
      simp only [List.set_cons_zero, List.getD_cons_zero, List.count_cons, beq_iff_eq]
      split_ifs <;> omega
    | succ n =>
      have hn : n < xs.length := by simpa using h
      have := ih n hn
      simp only [List.set_cons_succ, List.count_cons, beq_iff_eq, List.getD_cons_succ]
      split_ifs at this ⊢ <;> omega

theorem count_listSwap {α : Type} [DecidableEq α] (l : List α) (i j : Nat) (b : α) :
    (listSwap l i j).count b = l.count b := by
  unfold listSwap
  cases hx : l[i]? with
  | none => simp
  | some x =>
    cases hy : l[j]? with
    | none => simp
    | some y =>
      simp only
      have hi : i < l.length := lt_length_of_getElem?_some hx
      have hj : j < l.length := lt_length_of_getElem?_some hy
      have hgi : l.getD i y = x := getD_of_getElem?_some y hx
      have e1 := count_set_aux l i y b hi
      rw [hgi] at e1
      have hj' : j < (l.set i y).length := by simpa [List.length_set] using hj
      have e2 := count_set_aux (l.set i y) j x b hj'
      by_cases hij : i = j
      · subst hij
        have hxy : x = y := by rw [hx] at hy; exact Option.some.inj hy
        have hset : (l.set i y).getD i x = y := by
          have hs : (l.set i y)[i]? = some y := List.getElem?_set_self hi
          exact getD_of_getElem?_some x hs
        rw [hset] at e2
        subst hxy
        omega
      · have hset : (l.set i y).getD j x = y := by
          have hs : (l.set i y)[j]? = some y := by
            rw [List.getElem?_set_ne hij]
            exact hy
          exact getD_of_getElem?_some x hs
        rw [hset] at e2
        split_ifs at e1 e2 <;> omega

theorem listSwap_perm {α : Type} [DecidableEq α] (l : List α) (i j : Nat) :
    List.Perm (listSwap l i j) l :=
  List.perm_iff_count.mpr (fun b => count_listSwap l i j b)

theorem fyLoop_perm {α : Type} [DecidableEq α] (rands : Nat → Nat) (k : Nat) (a : List α) :
    List.Perm (fyLoop rands a k) a := by
  induction k generalizing a with
  | zero => exact List.Perm.refl a
  | succ n ih =>
    exact (ih _).trans (listSwap_perm a (n + 1) (rands (n + 1) % (n + 2)))

theorem fisherYates_perm {α : Type} [DecidableEq α] (a : List α) (rands : Nat → Nat) :
    List.Perm (fisherYates a rands) a :=
  fyLoop_perm rands (a.length - 1) a

theorem pickWinners_length (w : Nat) (parts rands : List Nat) :
    (pickWinners w parts rands).length = min w parts.length := by
  induction w generalizing parts rands with
  | zero => simp [pickWinners]
  | succ k ih =>
    cases parts with
    | nil => simp [pickWinners]
    | cons p ps =>
      simp only [pickWinners, List.length_cons]
      have hpos : 0 < (p :: ps).length := by simp
      have hidx : rands.headD 0 % (p :: ps).length < (p :: ps).length :=
        Nat.mod_lt _ hpos
      have hlen := length_eraseIdx_add_one (p :: ps) _ hidx
      rw [ih]
      simp only [List.length_cons] at hlen ⊢
      omega

theorem pickWinners_subset (w : Nat) (parts rands : List Nat) :
    ∀ x ∈ pickWinners w parts rands, x ∈ parts := by
  induction w generalizing parts rands with
  | zero => simp [pickWinners]
  | succ k ih =>
    cases parts with
    | nil => simp [pickWinners]
    | cons p ps =>
      intro x hx
      simp only [pickWinners, List.mem_cons] at hx
      have hpos : 0 < (p :: ps).length := by simp
      have hidx : rands.headD 0 % (p :: ps).length < (p :: ps).length :=
        Nat.mod_lt _ hpos
      rcases hx with hx | hx
      · rw [hx]
        exact getD_mem _ _ _ hidx
      · exact mem_of_mem_eraseIdx (ih _ _ x hx)

theorem pickWinners_nodup (w : Nat) (parts rands : List Nat) (h : parts.Nodup) :
    (pickWinners w parts rands).Nodup := by
  induction w generalizing parts rands with
  | zero => simp [pickWinners]
  | succ k ih =>
    cases parts with
    | nil => simp [pickWinners]
    | cons p ps =>
      simp only [pickWinners]
      have hpos : 0 < (p :: ps).length := by simp
      have hidx : rands.headD 0 % (p :: ps).length < (p :: ps).length :=
        Nat.mod_lt _ hpos
      have hperm := cons_eraseIdx_perm (p :: ps) (rands.headD 0 % (p :: ps).length) 0 hidx
      have hcons := hperm.nodup_iff.mp h
      rw [List.nodup_cons] at hcons
      rw [List.nodup_cons]
      constructor
      · intro hmem
        exact hcons.1 (pickWinners_subset _ _ _ _ hmem)
      · exact ih _ _ hcons.2

theorem participantsOf_nodup (users : List RUser)
    (h : (users.map RUser.id).Nodup) : (participantsOf users).Nodup := by
  have hsub : List.Sublist ((users.filter (fun u => !u.bot)).map RUser.id)
      (users.map RUser.id) :=
    (List.filter_sublist users).map RUser.id
  exact h.sublist hsub

theorem mem_participantsOf {users : List RUser} {x : Nat}
    (h : x ∈ participantsOf users) : ∃ u ∈ users, u.bot = false ∧ u.id = x := by
  simp only [participantsOf, List.mem_map, List.mem_filter, Bool.not_eq_true'] at h
  obtain ⟨u, ⟨hu, hb⟩, hid⟩ := h
  exact ⟨u, hu, hb, hid⟩

theorem find?_filter_ne_key {β : Type} (m : List (Nat × β)) (k k' : Nat) (h : k' ≠ k) :
    (m.filter (fun e => decide (e.1 ≠ k))).find? (fun e => decide (e.1 = k'))
      = m.find? (fun e => decide (e.1 = k')) := by
  induction m with
  | nil => rfl
  | cons e rest ih =>
    by_cases he : e.1 = k
    · have h1 : decide (e.1 ≠ k) = false := by simp [he]
      have h2 : decide (e.1 = k') = false := by
        simp only [decide_eq_false_iff_not]
        rw [he]
        exact fun hh => h hh.symm
      rw [List.filter_cons, h1, if_neg Bool.false_ne_true, List.find?_cons, h2]
      exact ih
    · have h1 : decide (e.1 ≠ k) = true := by simp [he]
      rw [List.filter_cons, h1, if_pos rfl]
      by_cases hp : e.1 = k'
      · have h2 : decide (e.1 = k') = true := by simp [hp]
        rw [List.find?_cons, List.find?_cons, h2]
      · have h2 : decide (e.1 = k') = false := by simp [hp]
        rw [List.find?_cons, List.find?_cons, h2]
        exact ih

theorem alookup_aset_self {β : Type} (m : List (Nat × β)) (k : Nat) (v : β) :
    alookup (aset m k v) k = some v := by
  simp [alookup, aset, List.find?_cons]

theorem alookup_aset_ne {β : Type} (m : List (Nat × β)) (k k' : Nat) (v : β)
    (h : k' ≠ k) : alookup (aset m k v) k' = alookup m k' := by
  have hk : ¬ ((k, v).1 = k') := fun hkk => h (hkk.symm)
  simp only [alookup, aset, List.find?_cons, hk, decide_eq_true_eq]
  rw [find?_filter_ne_key m k k' h]
  simp

theorem alookup_adel_self {β : Type} (m : List (Nat × β)) (k : Nat) :
    alookup (adel m k) k = none := by
  simp only [alookup, adel, Option.map_eq_none']
  rw [List.find?_eq_none]
  intro e he
  rcases List.mem_filter.mp he with ⟨_, hne⟩
  simp only [decide_eq_true_eq] at hne ⊢
  exact hne

theorem alookup_adel_ne {β : Type} (m : List (Nat × β)) (k k' : Nat) (h : k' ≠ k) :
    alookup (adel m k) k' = alookup m k' := by
  simp only [alookup, adel]
  rw [find?_filter_ne_key m k k' h]

theorem keysNodup_aset {β : Type} (m : List (Nat × β)) (k : Nat) (v : β)
    (h : keysNodup m) : keysNodup (aset m k v) := by
  simp only [keysNodup, aset, List.map_cons, List.nodup_cons]
  constructor
  · intro hmem
    rcases List.mem_map.mp hmem with ⟨e, he, hfst⟩
    rcases List.mem_filter.mp he with ⟨_, hne⟩
    simp only [decide_eq_true_eq] at hne
    exact hne hfst
  · exact h.sublist ((List.filter_sublist m).map Prod.fst)

theorem keysNodup_adel {β : Type} (m : List (Nat × β)) (k : Nat)
    (h : keysNodup m) : keysNodup (adel m k) :=
  h.sublist ((List.filter_sublist m).map Prod.fst)

theorem endGiveaway_active_self (s : GiveState) (mid chanId : Nat) (fetchOk : Bool)
    (users : List RUser) (rands : List Nat) (em : Nat) :
    alookup (endGiveaway s mid chanId fetchOk users rands em).1.active mid = none := by
  unfold endGiveaway
  cases halo : alookup s.active mid with
  | none => exact halo
  | some gw =>
    cases fetchOk <;> simp [alookup_adel_self]

theorem endGiveaway_active_ne (s : GiveState) (mid mid' chanId : Nat) (fetchOk : Bool)
    (users : List RUser) (rands : List Nat) (em : Nat) (h : mid' ≠ mid) :
    alookup (endGiveaway s mid chanId fetchOk users rands em).1.active mid'
      = alookup s.active mid' := by
  unfold endGiveaway
  cases halo : alookup s.active mid with
  | none => rfl
  | some gw =>
    cases fetchOk <;> simp [alookup_adel_ne _ _ _ h]


/-! Claim theorems. -/

/-- C1: for every giveaway end and reroll, the winner list is drawn from the
users who reacted with the giveaway emoji by filtering out bot users and
picking random indices without replacement: the drawn winners are
pairwise-distinct non-bot participants and their number is the minimum of
the configured winner count and the number of non-bot participants.  The
hypothesis that the fetched reaction users have pairwise-distinct ids
reflects that Discord returns the reaction users as a collection keyed by
user id. -/
theorem giveaway_winner_selection (wcount : Nat) (users : List RUser)
    (rands : List Nat) (hids : (users.map RUser.id).Nodup) :
    (pickWinners wcount (participantsOf users) rands).length
        = min wcount (participantsOf users).length ∧
    (pickWinners wcount (participantsOf users) rands).Nodup ∧
    ∀ w ∈ pickWinners wcount (participantsOf users) rands,
      ∃ u ∈ users, u.bot = false ∧ u.id = w :=
  ⟨pickWinners_length _ _ _,
   pickWinners_nodup _ _ _ (participantsOf_nodup users hids),
   fun _ hw => mem_participantsOf (pickWinners_subset _ _ _ _ hw)⟩

/-- Witness for C1 at a concrete reaction list: three users, one of them a
bot, two winners requested. -/
theorem giveaway_winner_selection_witness :
    (pickWinners 2 (participantsOf [⟨1, false⟩, ⟨2, true⟩, ⟨3, false⟩]) [0, 0]).length
        = min 2 (participantsOf [⟨1, false⟩, ⟨2, true⟩, ⟨3, false⟩]).length ∧
    (pickWinners 2 (participantsOf [⟨1, false⟩, ⟨2, true⟩, ⟨3, false⟩]) [0, 0]).Nodup ∧
    ∀ w ∈ pickWinners 2 (participantsOf [⟨1, false⟩, ⟨2, true⟩, ⟨3, false⟩]) [0, 0],
      ∃ u ∈ ([⟨1, false⟩, ⟨2, true⟩, ⟨3, false⟩] : List RUser),
        u.bot = false ∧ u.id = w :=
  giveaway_winner_selection 2 [⟨1, false⟩, ⟨2, true⟩, ⟨3, false⟩] [0, 0] (by decide)

/-- C5: the Lavalink socket-error handler schedules no reconnect when the
error has no (or a falsy) message; otherwise the delay is 5000 ms for
messages containing AbortError, else 15000 ms for ECONNREFUSED or
Connection refused, else 7500 ms for Transport failed or Connection reset,
else the fixed default 10000 ms. -/
theorem reconnect_delay_spec :
    reconnectDelay none = none ∧
    reconnectDelay (some "") = none ∧
    ∀ m : String, m ≠ "" →
      (strContains m "AbortError" = true → reconnectDelay (some m) = some 5000) ∧
      (strContains m "AbortError" = false →
        strContains m "ECONNREFUSED" = true ∨ strContains m "Connection refused" = true →
        reconnectDelay (some m) = some 15000) ∧
      (strContains m "AbortError" = false → strContains m "ECONNREFUSED" = false →
        strContains m "Connection refused" = false →
        strContains m "Transport failed" = true ∨ strContains m "Connection reset" = true →
        reconnectDelay (some m) = some 7500) ∧
      (strContains m "AbortError" = false → strContains m "ECONNREFUSED" = false →
        strContains m "Connection refused" = false →
        strContains m "Transport failed" = false → strContains m "Connection reset" = false →
        reconnectDelay (some m) = some 10000) := by
  refine ⟨rfl, rfl, fun m hm => ⟨?_, ?_, ?_, ?_⟩⟩
  · intro h1
    simp [reconnectDelay, hm, h1]
  · intro h1 h2
    rcases h2 with h2 | h2 <;> simp [reconnectDelay, hm, h1, h2]
  · intro h1 h2 h3 h4
    rcases h4 with h4 | h4 <;> simp [reconnectDelay, hm, h1, h2, h3, h4]
  · intro h1 h2 h3 h4 h5
    simp [reconnectDelay, hm, h1, h2, h3, h4, h5]

/-- Witness for C5 at a concrete refused-connection message. -/
theorem reconnect_delay_spec_witness :
    reconnectDelay (some "connect ECONNREFUSED 127.0.0.1:2333") = some 15000 :=
  (reconnect_delay_spec.2.2 "connect ECONNREFUSED 127.0.0.1:2333" (by decide)).2.1
    (by decide) (Or.inl (by decide))

/-- C6: for a message id present in activeGiveaways, endGiveaway removes the
entry and clears its timer whether it returns true or false, and
endedGiveaways holds a snapshot for the id exactly when it returned true;
in particular a giveaway whose message fetch fails is removed without ever
being recorded in endedGiveaways.  The hypothesis that the id is not
already in endedGiveaways reflects that Discord message ids are unique, so
an id enters activeGiveaways (and can be ended) only once. -/
theorem endGiveaway_cleanup (s : GiveState) (mid chanId : Nat) (fetchOk : Bool)
    (users : List RUser) (rands : List Nat) (em : Nat) (gw : GiveawayEntry)
    (hact : alookup s.active mid = some gw)
    (hended : alookup s.ended mid = none) :
    alookup (endGiveaway s mid chanId fetchOk users rands em).1.active mid = none ∧
    gw.timeoutId ∈ (endGiveaway s mid chanId fetchOk users rands em).1.clearedTimers ∧
    (∀ pr ∈ (endGiveaway s mid chanId fetchOk users rands em).1.pendingTimers,
      pr.1 ≠ gw.timeoutId) ∧
    ((alookup (endGiveaway s mid chanId fetchOk users rands em).1.ended mid).isSome
      ↔ (endGiveaway s mid chanId fetchOk users rands em).2 = true) := by
  unfold endGiveaway
  rw [hact]
  refine ⟨?_, ?_, ?_, ?_⟩
  · cases fetchOk <;> simp [alookup_adel_self]
  · cases fetchOk <;> simp
  · cases fetchOk <;>
      · intro pr hpr
        simp only [Bool.false_eq_true, if_false, if_true, List.mem_filter,
          decide_eq_true_eq] at hpr
        exact hpr.2
  · cases fetchOk
    · simp [hended]
    · simp [alookup_aset_self]

/-- Witness for C6 at a concrete state with one active giveaway whose
message fetch fails. -/
theorem endGiveaway_cleanup_witness :
    alookup (endGiveaway ⟨[(5, ⟨7, "a prize", 1, 42⟩)], [], [(42, 5)], [], 9⟩
        5 7 false [] [] 0).1.active 5 = none ∧
    (42 : Nat) ∈ (endGiveaway ⟨[(5, ⟨7, "a prize", 1, 42⟩)], [], [(42, 5)], [], 9⟩
        5 7 false [] [] 0).1.clearedTimers ∧
    (∀ pr ∈ (endGiveaway ⟨[(5, ⟨7, "a prize", 1, 42⟩)], [], [(42, 5)], [], 9⟩
        5 7 false [] [] 0).1.pendingTimers, pr.1 ≠ (42 : Nat)) ∧
    ((alookup (endGiveaway ⟨[(5, ⟨7, "a prize", 1, 42⟩)], [], [(42, 5)], [], 9⟩
        5 7 false [] [] 0).1.ended 5).isSome
      ↔ (endGiveaway ⟨[(5, ⟨7, "a prize", 1, 42⟩)], [], [(42, 5)], [], 9⟩
        5 7 false [] [] 0).2 = true) := by
  have h := endGiveaway_cleanup ⟨[(5, ⟨7, "a prize", 1, 42⟩)], [], [(42, 5)], [], 9⟩
    5 7 false [] [] 0 ⟨7, "a prize", 1, 42⟩ (by decide) (by decide)
  exact h

/-- C7 counterexample: with current track uri u requester 1 and a queued
track with the same uri but requester 2, and the Fisher-Yates draw picking
index 0, the shuffle button keeps the current track playing, re-adds a copy
of it to the queue and drops the queued track, so the tracks afterwards are
not a permutation of the tracks before. -/
theorem shuffle_button_counterexample :
    ¬ List.Perm
        ((shuffleButtonEffect ⟨"u", 1⟩ [⟨"u", 2⟩] (fun _ => 0)).1
          :: (shuffleButtonEffect ⟨"u", 1⟩ [⟨"u", 2⟩] (fun _ => 0)).2)
        ((⟨"u", 1⟩ : Track) :: [⟨"u", 2⟩]) := by
  decide

/-- C7 amended: the shuffle-button Fisher-Yates pass preserves the multiset
of track uris across the playing slot and the queue (given that the
library-level queue shuffle permutes the queue), and it preserves the full
track multiset provided every queued track sharing the current track uri is
the current track itself. -/
theorem shuffle_button_permutation (current : Track) (qtracks qshuf : List Track)
    (rands : Nat → Nat) (hshuf : List.Perm qshuf qtracks) :
    List.Perm
      ((shuffleButtonEffect current qshuf rands).1.uri
        :: (shuffleButtonEffect current qshuf rands).2.map Track.uri)
      (current.uri :: qtracks.map Track.uri) ∧
    ((∀ t ∈ qtracks, t.uri = current.uri → t = current) →
      List.Perm
        ((shuffleButtonEffect current qshuf rands).1
          :: (shuffleButtonEffect current qshuf rands).2)
        (current :: qtracks)) := by
  have hfy2 : List.Perm (fisherYates (current :: qshuf) rands) (current :: qtracks) :=
    (fisherYates_perm _ _).trans (hshuf.cons current)
  cases hres : fisherYates (current :: qshuf) rands with
  | nil =>
    rw [hres] at hfy2
    exact absurd hfy2.length_eq (by simp)
  | cons t0 rest =>
    rw [hres] at hfy2
    have hval : shuffleButtonEffect current qshuf rands
        = if t0.uri = current.uri then (current, rest) else (t0, rest) := by
      unfold shuffleButtonEffect
      rw [hres]
    rw [hval]
    by_cases huri : t0.uri = current.uri
    · rw [if_pos huri]
      constructor
      · have hm := hfy2.map Track.uri
        simp only [List.map_cons] at hm
        rw [huri] at hm
        exact hm
      · intro hnodup
        have ht0 : t0 ∈ current :: qtracks := hfy2.mem_iff.mp (List.mem_cons_self t0 rest)
        have ht0eq : t0 = current := by
          rcases List.mem_cons.mp ht0 with h | h
          · exact h
          · exact hnodup t0 h huri
        rw [ht0eq] at hfy2
        exact hfy2
    · rw [if_neg huri]
      constructor
      · have hm := hfy2.map Track.uri
        simp only [List.map_cons] at hm
        exact hm
      · exact fun _ => hfy2

/-- Witness for C7 at a concrete two-track queue. -/
theorem shuffle_button_permutation_witness :
    List.Perm
      ((shuffleButtonEffect ⟨"a", 1⟩ [⟨"b", 2⟩] (fun _ => 0)).1.uri
        :: (shuffleButtonEffect ⟨"a", 1⟩ [⟨"b", 2⟩] (fun _ => 0)).2.map Track.uri)
      ((⟨"a", 1⟩ : Track).uri :: ([⟨"b", 2⟩] : List Track).map Track.uri) ∧
    ((∀ t ∈ ([⟨"b", 2⟩] : List Track), t.uri = (⟨"a", 1⟩ : Track).uri →
        t = (⟨"a", 1⟩ : Track)) →
      List.Perm
        ((shuffleButtonEffect ⟨"a", 1⟩ [⟨"b", 2⟩] (fun _ => 0)).1
          :: (shuffleButtonEffect ⟨"a", 1⟩ [⟨"b", 2⟩] (fun _ => 0)).2)
        ((⟨"a", 1⟩ : Track) :: [⟨"b", 2⟩])) :=
  shuffle_button_permutation ⟨"a", 1⟩ [⟨"b", 2⟩] [⟨"b", 2⟩] (fun _ => 0)
    (List.Perm.refl _)

/-- C8: every provided poll choice option is mapped to the fixed
regional-indicator emoji at that option index, and with at least two
provided choices the bot reacts to its own poll message with exactly the
emoji of the provided choices, in option order. -/
theorem poll_reactions_spec (opts : Nat → Option String)
    (h2 : 2 ≤ (pollChoices opts).length) :
    pollReactions opts
        = ((List.range 20).filter (fun i => truthyStr (opts i))).map
            (fun i => emojiMap.getD i "") ∧
    ∀ i v, i < 20 → opts i = some v → v ≠ "" →
      (emojiMap.getD i "", v) ∈ pollChoices opts := by
  constructor
  · rw [pollReactions, if_pos h2]
    unfold pollChoices
    have key : ∀ l : List Nat,
        ((l.filterMap (fun i => match opts i with
            | some v => if v = "" then none else some (emojiMap.getD i "", v)
            | none => none)).map Prod.fst)
          = (l.filter (fun i => truthyStr (opts i))).map (fun i => emojiMap.getD i "") := by
      intro l
      induction l with
      | nil => rfl
      | cons a as ih =>
        simp only [truthyStr, List.getD_eq_getElem?_getD] at ih ⊢
        cases ha : opts a with
        | none => simp [List.filterMap_cons, List.filter_cons, ha, ih]
        | some v =>
          by_cases hv : v = ""
          · simp [List.filterMap_cons, List.filter_cons, ha, hv, ih]
          · simp [List.filterMap_cons, List.filter_cons, ha, hv, ih]
    exact key (List.range 20)
  · intro i v hi hv hne
    unfold pollChoices
    refine List.mem_filterMap.mpr ⟨i, List.mem_range.mpr hi, ?_⟩
    rw [hv]
    simp [hne]

/-- Witness for C8 with choices provided at option indices 0 and 3. -/
theorem poll_reactions_spec_witness :
    pollReactions (fun i => if i = 0 then some "Red" else if i = 3 then some "Blue" else none)
        = ((List.range 20).filter
            (fun i => truthyStr
              ((fun i => if i = 0 then some "Red" else if i = 3 then some "Blue" else none) i))).map
            (fun i => emojiMap.getD i "") ∧
    ∀ i v, i < 20 →
      (fun i => if i = 0 then some "Red" else if i = 3 then some "Blue" else none) i = some v →
      v ≠ "" →
      (emojiMap.getD i "", v)
        ∈ pollChoices (fun i => if i = 0 then some "Red" else if i = 3 then some "Blue" else none) :=
  poll_reactions_spec _ (by decide)

/-- C9: on playerEmpty with autoplay enabled for the guild and a previous
track, the handler searches a random genre drawn from the fixed eleven-genre
list and appends at most five tracks of the shuffled search result to the
queue; with autoplay not enabled it performs no search and appends
nothing. -/
theorem autoplay_on_empty_spec (draw : Nat) (searchTracks : List Track)
    (searchShuffle : List Track → List Track) :
    (autoplayOnEmpty true true draw searchTracks searchShuffle).searched = true ∧
    (∃ g, (autoplayOnEmpty true true draw searchTracks searchShuffle).genre = some g ∧
      g ∈ genres) ∧
    (autoplayOnEmpty true true draw searchTracks searchShuffle).appended
        = (if 0 < searchTracks.length then (searchShuffle searchTracks).take 5 else []) ∧
    (autoplayOnEmpty true true draw searchTracks searchShuffle).appended.length ≤ 5 ∧
    (∀ prevTruthy : Bool,
      (autoplayOnEmpty false prevTruthy draw searchTracks searchShuffle).searched = false ∧
      (autoplayOnEmpty false prevTruthy draw searchTracks searchShuffle).appended = []) := by
  have hg : genres.getD (draw % genres.length) "" ∈ genres :=
    getD_mem _ _ _ (Nat.mod_lt _ (by decide))
  have happ : (autoplayOnEmpty true true draw searchTracks searchShuffle).appended
      = (if 0 < searchTracks.length then (searchShuffle searchTracks).take 5 else []) := by
    by_cases hlen : 0 < searchTracks.length <;> simp [autoplayOnEmpty, hlen]
  refine ⟨?_, ⟨_, ?_, hg⟩, happ, ?_, by simp [autoplayOnEmpty]⟩
  · by_cases hlen : 0 < searchTracks.length <;> simp [autoplayOnEmpty, hlen]
  · by_cases hlen : 0 < searchTracks.length <;> simp [autoplayOnEmpty, hlen]
  · rw [happ]
    by_cases hlen : 0 < searchTracks.length
    · rw [if_pos hlen]
      simp
    · rw [if_neg hlen]
      simp

/-- C10 counterexample: the giveaway bot keep-alive body interpolates the
logged-in username, so it is not a static string independent of bot state:
two states with different usernames produce different responses to the same
request. -/
theorem keepalive_counterexample :
    giveawayKeepAlive "/" (some "Alice") ≠ giveawayKeepAlive "/" (some "Bob") := by
  decide

/-- C10 amended: the music and poll bot keep-alive endpoints return fixed
strings that depend neither on the request nor on bot state; the giveaway
bot keep-alive is independent of the request but interpolates the logged-in
username, with the fallback Giveaway Bot before login. -/
theorem keepalive_spec :
    (∀ r : String, musicKeepAlive r = "Bot is running!") ∧
    (∀ r : String, pollKeepAlive r = "Bot is online") ∧
    (∀ (r r' : String) (u : Option String), giveawayKeepAlive r u = giveawayKeepAlive r' u) ∧
    (∀ r : String, giveawayKeepAlive r none = "Giveaway Bot is running!") ∧
    (∀ (r u : String), giveawayKeepAlive r (some u) = u ++ " is running!") :=
  ⟨fun _ => rfl, fun _ => rfl, fun _ _ _ => rfl, fun _ => rfl, fun _ _ => rfl⟩

/-- C2 counterexample: a pause button interaction with an active player, a
current track requested by the invoking user, and the member in the player
voice channel produces no library call and no reply at all, because the
dispatch list of the handler does not contain pause (or resume); the claim
requires a requester check followed by a pause call and a status reply. -/
theorem music_button_counterexample :
    (⟨"song", 1⟩ : Track).requesterId = 1 ∧
    musicButtonHandler ⟨"pause", 1, some 10⟩
        (some ⟨10, some ⟨"song", 1⟩, [⟨"next", 2⟩], false, true, true⟩)
        (fun l => l) (fun _ => 0)
      = ⟨[], none⟩ := by
  decide

/-- C2 amended: for the dispatched music-control buttons skip, replay,
shuffle and stop, with an active non-destroyed player, a current track, a
non-empty queue and the member in the player voice channel, the handler
checks the invoking user against the current track requester: on a mismatch
it replies with a refusal and issues no library call, and on a match it
issues the corresponding library calls and replies with a status string.
The pause and resume custom ids are not in the dispatch list and fall
through with no call and no reply, and the legacy pauseresume button
replies with an update notice without any requester check or library
call. -/
theorem music_button_requester_gate (cid : String) (p : MusicPlayer) (t : Track)
    (uid : Nat) (libShuffle : List Track → List Track) (rands : Nat → Nat)
    (hcur : p.current = some t) (hnd : p.destroyed = false) (hq : p.tracks ≠ []) :
    ((cid = "skip" ∨ cid = "replay" ∨ cid = "shuffle" ∨ cid = "stop") →
      (t.requesterId ≠ uid →
        (musicButtonHandler ⟨cid, uid, some p.voiceId⟩ (some p) libShuffle rands).calls = [] ∧
        ((musicButtonHandler ⟨cid, uid, some p.voiceId⟩ (some p) libShuffle rands).reply
            = some requesterOnlyMsg ∨
          (musicButtonHandler ⟨cid, uid, some p.voiceId⟩ (some p) libShuffle rands).reply
            = some requesterOnlyStopMsg)) ∧
      (t.requesterId = uid →
        (musicButtonHandler ⟨cid, uid, some p.voiceId⟩ (some p) libShuffle rands).calls ≠ [] ∧
        (musicButtonHandler ⟨cid, uid, some p.voiceId⟩ (some p) libShuffle rands).reply ≠ none)) ∧
    ((cid = "pause" ∨ cid = "resume") →
      musicButtonHandler ⟨cid, uid, some p.voiceId⟩ (some p) libShuffle rands = ⟨[], none⟩) ∧
    (cid = "pauseresume" →
      musicButtonHandler ⟨cid, uid, some p.voiceId⟩ (some p) libShuffle rands
        = ⟨[], some legacyPauseResumeMsg⟩) := by
  have hlen0 : ¬ p.tracks.length = 0 := by
    simpa [List.length_eq_zero] using hq
  refine ⟨?_, ?_, ?_⟩
  · intro hcid
    rcases hcid with rfl | rfl | rfl | rfl
    · constructor
      · intro hdiff
        simp [musicButtonHandler, hcur, hdiff]
      · intro heq
        simp [musicButtonHandler, hcur, heq]
    · constructor
      · intro hdiff
        simp [musicButtonHandler, hcur, hdiff]
      · intro heq
        simp [musicButtonHandler, hcur, heq]
    · constructor
      · intro hdiff
        simp [musicButtonHandler, hcur, hdiff]
      · intro heq
        cases hres : fisherYates (t :: libShuffle p.tracks) rands with
        | nil => simp [musicButtonHandler, hcur, heq, hlen0, hres]
        | cons t0 rest => simp [musicButtonHandler, hcur, heq, hlen0, hres]
    · constructor
      · intro hdiff
        simp [musicButtonHandler, hcur, hdiff]
      · intro heq
        simp [musicButtonHandler, hcur, heq, hnd]
  · intro hcid
    rcases hcid with rfl | rfl
    · simp [musicButtonHandler]
    · simp [musicButtonHandler]
  · intro hcid
    subst hcid
    simp [musicButtonHandler]

/-- Witness for C2 with a concrete skip interaction by the requester. -/
theorem music_button_requester_gate_witness :
    (("skip" : String) = "skip" ∨ ("skip" : String) = "replay" ∨
      ("skip" : String) = "shuffle" ∨ ("skip" : String) = "stop") ∧
    (musicButtonHandler ⟨"skip", 1, some 10⟩
        (some ⟨10, some ⟨"song", 1⟩, [⟨"next", 2⟩], false, true, true⟩)
        (fun l => l) (fun _ => 0)).calls ≠ [] ∧
    (musicButtonHandler ⟨"skip", 1, some 10⟩
        (some ⟨10, some ⟨"song", 1⟩, [⟨"next", 2⟩], false, true, true⟩)
        (fun l => l) (fun _ => 0)).reply ≠ none :=
  ⟨Or.inl rfl,
    ((music_button_requester_gate "skip" ⟨10, some ⟨"song", 1⟩, [⟨"next", 2⟩], false, true, true⟩
        ⟨"song", 1⟩ 1 (fun l => l) (fun _ => 0) rfl rfl (by decide)).1
      (Or.inl rfl)).2 rfl⟩

theorem stepTimerFire_inactivityTimeouts (s : MusicState) (tid : Nat) :
    (stepTimerFire s tid).inactivityTimeouts = s.inactivityTimeouts := by
  unfold stepTimerFire
  split
  · rfl
  · split
    · rfl
    · split <;> rfl

theorem stepTimerFire_pending_sub (s : MusicState) (tid : Nat) :
    ∀ x ∈ (stepTimerFire s tid).pending, x ∈ s.pending := by
  unfold stepTimerFire
  split
  · exact fun x hx => hx
  · split
    · exact fun x hx => (List.mem_filter.mp hx).1
    · split
      · exact fun x hx => (List.mem_filter.mp hx).1
      · exact fun x hx => (List.mem_filter.mp hx).1

/-- C3: the inactivity teardown stores a single timer per guild in
inactivityTimeouts when the queue becomes empty, always with the fixed
180000 ms delay; when such a timer fires it destroys the player only if the
player still exists, its queue has no current track or is empty, it is not
playing, and 24/7 mode is off for the guild — in particular the players of
guilds present in the twentyFourSeven map are untouched by a firing timer —
and when playback starts first the pending timer is cleared and its entry
removed from inactivityTimeouts. -/
theorem inactivity_teardown_spec :
    (∀ evs : List MEvent,
      (∀ t ∈ (mrun evs).pending, t.delay = inactivityDelayMs) ∧
      keysNodup (mrun evs).inactivityTimeouts) ∧
    (∀ (s : MusicState) (tid : Nat),
      (stepTimerFire s tid).destroyedByTimer ≠ s.destroyedByTimer →
      ∃ t, s.pending.find? (fun x => decide (x.tid = tid)) = some t ∧
        ∃ p, alookup s.players t.guild = some p ∧
          (p.hasCurrent = false ∨ p.queueIsEmpty = true) ∧ p.playing = false ∧
          t.guild ∉ s.twentyFourSeven) ∧
    (∀ (s : MusicState) (tid g : Nat), g ∈ s.twentyFourSeven →
      alookup (stepTimerFire s tid).players g = alookup s.players g) ∧
    (∀ (s : MusicState) (g tid : Nat),
      alookup s.inactivityTimeouts g = some tid →
      alookup (stepPlayerStart s g).inactivityTimeouts g = none ∧
      ∀ t ∈ (stepPlayerStart s g).pending, t.tid ≠ tid) := by
  refine ⟨?_, ?_, ?_, ?_⟩
  · have inv : ∀ (evs : List MEvent) (s : MusicState),
        ((∀ t ∈ s.pending, t.delay = inactivityDelayMs) ∧ keysNodup s.inactivityTimeouts) →
        ((∀ t ∈ (evs.foldl mstep s).pending, t.delay = inactivityDelayMs) ∧
          keysNodup (evs.foldl mstep s).inactivityTimeouts) := by
      intro evs
      induction evs with
      | nil => intro s hs; exact hs
      | cons e rest ih =>
        intro s hs
        rw [List.foldl_cons]
        apply ih
        cases e with
        | playerEmptyEv g c a =>
          show (∀ t ∈ (stepPlayerEmpty s g c a).pending, t.delay = inactivityDelayMs) ∧
            keysNodup (stepPlayerEmpty s g c a).inactivityTimeouts
          unfold stepPlayerEmpty
          split_ifs with h1 h2 h3
          · exact hs
          · exact hs
          · constructor
            · intro t ht
              rcases List.mem_cons.mp ht with rfl | ht
              · rfl
              · exact hs.1 t ht
            · exact keysNodup_aset _ _ _ hs.2
          · exact hs
        | playerStartEv g =>
          show (∀ t ∈ (stepPlayerStart s g).pending, t.delay = inactivityDelayMs) ∧
            keysNodup (stepPlayerStart s g).inactivityTimeouts
          unfold stepPlayerStart
          split
          · exact hs
          · constructor
            · intro t ht
              exact hs.1 t (List.mem_filter.mp ht).1
            · exact keysNodup_adel _ _ hs.2
        | timerFireEv tid =>
          show (∀ t ∈ (stepTimerFire s tid).pending, t.delay = inactivityDelayMs) ∧
            keysNodup (stepTimerFire s tid).inactivityTimeouts
          refine ⟨fun t ht => hs.1 t (stepTimerFire_pending_sub s tid t ht), ?_⟩
          rw [stepTimerFire_inactivityTimeouts]
          exact hs.2
        | createPlayerEv g p => exact hs
        | set247Ev g => exact hs
        | unset247Ev g => exact hs
    intro evs
    refine inv evs minit ⟨?_, ?_⟩
    · intro t ht
      simp [minit] at ht
    · simp [minit, keysNodup]
  · intro s tid hne
    unfold stepTimerFire at hne
    split at hne
    · exact absurd rfl hne
    · next t hfind =>
      split at hne
      · exact absurd rfl hne
      · next p hp =>
        split at hne
        · next hcond => exact ⟨t, hfind, p, hp, hcond.1, hcond.2.1, hcond.2.2⟩
        · exact absurd rfl hne
  · intro s tid g hg
    unfold stepTimerFire
    split
    · rfl
    · next t hfind =>
      split
      · rfl
      · next p hp =>
        split
        · next hcond =>
          have hgne : g ≠ t.guild := fun h => hcond.2.2 (h ▸ hg)
          exact alookup_adel_ne _ _ _ hgne
        · rfl
  · intro s g tid hlook
    unfold stepPlayerStart
    split
    · next heq =>
      rw [hlook] at heq
      exact Option.noConfusion heq
    · next tid2 heq =>
      rw [hlook] at heq
      obtain rfl := Option.some.inj heq
      constructor
      · exact alookup_adel_self _ _
      · intro t ht
        have h2 := (List.mem_filter.mp ht).2
        simpa using h2

/-- Witness for C3: a concrete state with one stored inactivity timer whose
guild starts playback. -/
theorem inactivity_teardown_spec_witness :
    alookup (stepPlayerStart ⟨[], [], [(5, 77)], [⟨77, 5, 180000⟩], [], 78⟩ 5).inactivityTimeouts 5
        = none ∧
    ∀ t ∈ (stepPlayerStart ⟨[], [], [(5, 77)], [⟨77, 5, 180000⟩], [], 78⟩ 5).pending,
      t.tid ≠ 77 :=
  inactivity_teardown_spec.2.2.2 ⟨[], [], [(5, 77)], [⟨77, 5, 180000⟩], [], 78⟩ 5 77 (by decide)

theorem endGiveaway_active_keysNodup (s : GiveState) (mid chanId : Nat) (fetchOk : Bool)
    (users : List RUser) (rands : List Nat) (em : Nat) (h : keysNodup s.active) :
    keysNodup (endGiveaway s mid chanId fetchOk users rands em).1.active := by
  unfold endGiveaway
  split
  · exact h
  · cases fetchOk
    · exact keysNodup_adel _ _ h
    · exact keysNodup_adel _ _ h

/-- C4: an activeGiveaways entry keyed by the giveaway message id holds the
channel, prize, winner count and pending timer; it is created by the start
command (prefix or slash), removed exactly when the end timer fires or the
end command is invoked early (the reroll command and every other event leave
the map unchanged), and the map never holds more than one entry per message
id. -/
theorem active_giveaways_lifecycle :
    (∀ (s : GiveState) (chanId : Nat) (prize : String) (winners : Nat),
      alookup (startGiveaway s chanId prize winners).1.active
          (startGiveaway s chanId prize winners).2
        = some ⟨chanId, prize, winners, s.nextId + 1⟩ ∧
      (s.nextId + 1, (startGiveaway s chanId prize winners).2)
        ∈ (startGiveaway s chanId prize winners).1.pendingTimers) ∧
    (∀ (s : GiveState) (e : GEvent) (mid : Nat),
      alookup s.active mid ≠ none → alookup (gstep s e).active mid = none →
      (∃ tid f us rs em, e = GEvent.timerFireEv tid f us rs em ∧
        (tid, mid) ∈ s.pendingTimers) ∨
      (∃ chanId f us rs em, e = GEvent.endCmdEv mid chanId f us rs em)) ∧
    (∀ (s : GiveState) (mid chanId : Nat) (f : Bool) (us : List RUser)
        (rs : List Nat) (em : Nat),
      alookup (gstep s (GEvent.endCmdEv mid chanId f us rs em)).active mid = none) ∧
    (∀ (s : GiveState) (tid : Nat) (f : Bool) (us : List RUser) (rs : List Nat)
        (em : Nat) (pr : Nat × Nat),
      s.pendingTimers.find? (fun x => decide (x.1 = tid)) = some pr →
      alookup (gstep s (GEvent.timerFireEv tid f us rs em)).active pr.2 = none) ∧
    (∀ evs : List GEvent, keysNodup (grun evs).active) := by
  refine ⟨?_, ?_, ?_, ?_, ?_⟩
  · intro s chanId prize winners
    exact ⟨alookup_aset_self _ _ _, List.mem_cons_self _ _⟩
  · intro s e mid h1 h2
    cases e with
    | startEv c pz w =>
      exfalso
      by_cases hm : mid = s.nextId
      · rw [show (gstep s (GEvent.startEv c pz w)).active
            = aset s.active s.nextId ⟨c, pz, w, s.nextId + 1⟩ from rfl, hm,
          alookup_aset_self] at h2
        exact Option.noConfusion h2
      · rw [show (gstep s (GEvent.startEv c pz w)).active
            = aset s.active s.nextId ⟨c, pz, w, s.nextId + 1⟩ from rfl,
          alookup_aset_ne _ _ _ _ hm] at h2
        exact h1 h2
    | timerFireEv tid f us rs em =>
      simp only [gstep] at h2
      split at h2
      · exact absurd h2 h1
      · next pr hfind =>
        by_cases hm : mid = pr.2
        · left
          refine ⟨tid, f, us, rs, em, rfl, ?_⟩
          have hmem := List.mem_of_find?_eq_some hfind
          have hkey := List.find?_some hfind
          simp only [decide_eq_true_eq] at hkey
          have hpr : pr = (tid, mid) := by
            rcases pr with ⟨a, b⟩
            have ha : a = tid := hkey
            have hb : mid = b := hm
            rw [ha, hb]
          rw [← hpr]
          exact hmem
        · exfalso
          rw [endGiveaway_active_ne _ _ _ _ _ _ _ _ hm] at h2
          exact h1 h2
    | endCmdEv mid2 c f us rs em =>
      by_cases hm : mid = mid2
      · right
        subst hm
        exact ⟨c, f, us, rs, em, rfl⟩
      · exfalso
        simp only [gstep] at h2
        rw [endGiveaway_active_ne _ _ _ _ _ _ _ _ hm] at h2
        exact h1 h2
    | rerollEv m f us rs =>
      exact absurd h2 h1
  · intro s mid chanId f us rs em
    exact endGiveaway_active_self _ _ _ _ _ _ _
  · intro s tid f us rs em pr hfind
    show alookup (gstep s (GEvent.timerFireEv tid f us rs em)).active pr.2 = none
    simp only [gstep]
    split
    · next heq =>
      rw [hfind] at heq
      exact Option.noConfusion heq
    · next pr2 heq =>
      rw [hfind] at heq
      obtain rfl := Option.some.inj heq
      exact endGiveaway_active_self _ _ _ _ _ _ _
  · have inv : ∀ (evs : List GEvent) (s : GiveState), keysNodup s.active →
        keysNodup ((evs.foldl gstep s).active) := by
      intro evs
      induction evs with
      | nil => intro s hs; exact hs
      | cons e rest ih =>
        intro s hs
        rw [List.foldl_cons]
        apply ih
        cases e with
        | startEv c pz w => exact keysNodup_aset _ _ _ hs
        | timerFireEv tid f us rs em =>
          show keysNodup (gstep s (GEvent.timerFireEv tid f us rs em)).active
          simp only [gstep]
          split
          · exact hs
          · exact endGiveaway_active_keysNodup _ _ _ _ _ _ _ hs
        | endCmdEv mid c f us rs em => exact endGiveaway_active_keysNodup _ _ _ _ _ _ _ hs
        | rerollEv m f us rs => exact hs
    intro evs
    refine inv evs ginit ?_
    simp [ginit, keysNodup]

/-- Witness for C4: a concrete start followed by the end timer firing. -/
theorem active_giveaways_lifecycle_witness :
    alookup (gstep (startGiveaway ginit 7 "a prize" 2).1
        (GEvent.timerFireEv 1 true [] [] 9)).active 0 = none :=
  active_giveaways_lifecycle.2.2.2.1 (startGiveaway ginit 7 "a prize" 2).1
    1 true [] [] 9 (1, 0) (by decide)

end Bot
